import Mathlib

/-!
Shallow embedding of the AdRig icon generator (`src/generate_icons.py`).

Coordinates and colour arithmetic are modelled with exact rationals; the
Python float computations of the source are idealised as exact rational
arithmetic.  `math.sin` and the font rasteriser are external library calls
and appear as abstract function parameters: `sine q` stands for
`math.sin(q * math.pi)`, and a text operation carries the coverage
function produced by the external font engine.  Python `int()` is
modelled by `pyInt` (truncation toward zero).
-/

/-- Python `int()` on a rational: truncation toward zero. -/
def pyInt (q : ℚ) : ℤ := if q < 0 then -⌊-q⌋ else ⌊q⌋

/-- Shield outline points, from `create_shield_points` (src lines 10-37):
twelve points at fixed proportional offsets from the centre. -/
def create_shield_points (center : ℚ × ℚ) (radius : ℚ) : List (ℚ × ℚ) :=
  [ (center.1, center.2 - radius * 1.05),
    (center.1 - radius * 0.7, center.2 - radius * 0.95),
    (center.1 - radius * 0.85, center.2 - radius * 0.6),
    (center.1 - radius * 0.95, center.2 - radius * 0.2),
    (center.1 - radius * 0.95, center.2 + radius * 0.2),
    (center.1 - radius * 0.75, center.2 + radius * 0.55),
    (center.1, center.2 + radius * 1.12),
    (center.1 + radius * 0.75, center.2 + radius * 0.55),
    (center.1 + radius * 0.95, center.2 + radius * 0.2),
    (center.1 + radius * 0.95, center.2 - radius * 0.2),
    (center.1 + radius * 0.85, center.2 - radius * 0.6),
    (center.1 + radius * 0.7, center.2 - radius * 0.95) ]

/-- Per-pixel radial-gradient colour as a function of the normalised
distance ratio (src lines 112-129).  In each branch `t` is the local
fractional position `(ratio - lo) / 0.3` of the source, inlined into the
three channel expressions `int(c0 + (c1 - c0) * t)`. -/
def gradientColor (ratio : ℚ) : ℤ × ℤ × ℤ × ℤ :=
  if ratio < 0.4 then (0, 8, 32, 255)
  else if ratio < 0.7 then
    (pyInt (0 + (0 - 0) * ((ratio - 0.4) / 0.3)),
     pyInt (8 + (24 - 8) * ((ratio - 0.4) / 0.3)),
     pyInt (32 + (64 - 32) * ((ratio - 0.4) / 0.3)),
     255)
  else
    (pyInt (0 + (15 - 0) * ((ratio - 0.7) / 0.3)),
     pyInt (24 + (52 - 24) * ((ratio - 0.7) / 0.3)),
     pyInt (64 + (96 - 64) * ((ratio - 0.7) / 0.3)),
     255)

/-- Image centre `(size // 2, size // 2)` (src line 104). -/
def centerOf (size : ℕ) : ℤ × ℤ := ((size / 2 : ℕ), (size / 2 : ℕ))

/-- Squared distance from pixel `(x, y)` to the image centre.  The source
takes `math.sqrt` of this; we work with squares throughout and
characterise the source's `ratio = distance / max_radius` by
`ratio ≥ 0 ∧ ratio ^ 2 * maxRadiusSq = distSq`. -/
def distSq (size : ℕ) (x y : ℤ) : ℚ :=
  ((x : ℚ) - ((centerOf size).1 : ℚ)) ^ 2 + ((y : ℚ) - ((centerOf size).2 : ℚ)) ^ 2

/-- Square of `max_radius = sqrt(center_x ** 2 + center_y ** 2)` (src line 105). -/
def maxRadiusSq (size : ℕ) : ℚ :=
  (((centerOf size).1 : ℚ)) ^ 2 + (((centerOf size).2 : ℚ)) ^ 2

/-- Helix strand samples of `draw_circuit_dna` (src lines 47-55),
generalised over the sample count (the source fixes `steps = 40`).
`sine q` models `math.sin(q * math.pi)`, so the source's
`math.sin(t * math.pi * 4)` is `sine (t * 4)`. -/
def buildHelixStrands (sine : ℚ → ℚ) (center : ℚ × ℚ) (radius : ℚ)
    (sampleCount : ℕ) : List (ℚ × ℚ) × List (ℚ × ℚ) :=
  ((List.range sampleCount).map fun (i : ℕ) =>
      (center.1 - radius * 0.3 * sine (((i : ℚ) / (sampleCount : ℚ)) * 4),
       center.2 - radius * 0.8 + ((i : ℚ) / (sampleCount : ℚ)) * radius * 1.6),
   (List.range sampleCount).map fun (i : ℕ) =>
      (center.1 + radius * 0.3 * sine (((i : ℚ) / (sampleCount : ℚ)) * 4),
       center.2 - radius * 0.8 + ((i : ℚ) / (sampleCount : ℚ)) * radius * 1.6))

/-- Left endpoint of connection bar `i` (src lines 63-68): the same
parametric formulas as the strands, sampled at `t = i / 8`. -/
def rungLeft (sine : ℚ → ℚ) (center : ℚ × ℚ) (radius : ℚ) (i : ℕ) : ℚ × ℚ :=
  (center.1 - radius * 0.3 * sine (((i : ℚ) / 8) * 4),
   center.2 - radius * 0.8 + ((i : ℚ) / 8) * radius * 1.6)

/-- Right endpoint of connection bar `i` (src lines 63-68). -/
def rungRight (sine : ℚ → ℚ) (center : ℚ × ℚ) (radius : ℚ) (i : ℕ) : ℚ × ℚ :=
  (center.1 + radius * 0.3 * sine (((i : ℚ) / 8) * 4),
   center.2 - radius * 0.8 + ((i : ℚ) / 8) * radius * 1.6)

/-- Per-sub-segment alpha of the dividing line (src lines 196-200) as a
function of the normalised position `t = i / segments`. -/
def dividerAlpha (t : ℚ) : ℤ :=
  if t < 0.2 ∨ 0.8 < t then pyInt (100 * min (t / 0.2) ((1 - t) / 0.2)) else 100

/-- Node x-positions on the divider, `center[0] + i * radius * 0.2`
(src line 206), for `i` in `range(-2, 3)`. -/
def nodeX (cx radius : ℚ) (i : ℤ) : ℚ := cx + (i : ℚ) * radius * 0.2

/-- An RGBA colour with integer channels. -/
@[ext]
structure RGBA where
  r : ℤ
  g : ℤ
  b : ℤ
  a : ℤ
deriving DecidableEq

/-- Build an RGBA colour. -/
def mkRGBA (r g b a : ℤ) : RGBA := ⟨r, g, b, a⟩

/-- A drawing primitive issued against the compositing canvas.  Text
operations carry the coverage predicate of the external font rasteriser
(the repository never inspects glyph geometry itself). -/
inductive DrawOp where
  | polygonFill (pts : List (ℚ × ℚ)) (c : RGBA)
  | polygonOutline (pts : List (ℚ × ℚ)) (c : RGBA) (w : ℚ)
  | lineSeg (p1 p2 : ℚ × ℚ) (c : RGBA) (w : ℚ)
  | ellipseFill (x0 y0 x1 y1 : ℚ) (c : RGBA)
  | textDraw (cov : ℚ × ℚ → Bool) (c : RGBA)

/-- Squared distance from a point to the segment `[a, b]`. -/
def segDistSq (p a b : ℚ × ℚ) : ℚ :=
  if (b.1 - a.1) ^ 2 + (b.2 - a.2) ^ 2 = 0 then
    (p.1 - a.1) ^ 2 + (p.2 - a.2) ^ 2
  else
    (p.1 - (a.1 + max 0 (min 1 (((p.1 - a.1) * (b.1 - a.1) + (p.2 - a.2) * (b.2 - a.2)) /
        ((b.1 - a.1) ^ 2 + (b.2 - a.2) ^ 2))) * (b.1 - a.1))) ^ 2 +
    (p.2 - (a.2 + max 0 (min 1 (((p.1 - a.1) * (b.1 - a.1) + (p.2 - a.2) * (b.2 - a.2)) /
        ((b.1 - a.1) ^ 2 + (b.2 - a.2) ^ 2))) * (b.2 - a.2))) ^ 2

/-- Edges of a closed polygon: consecutive vertex pairs plus the closing edge. -/
def closedEdges (pts : List (ℚ × ℚ)) : List ((ℚ × ℚ) × (ℚ × ℚ)) :=
  pts.zip (pts.drop 1 ++ pts.take 1)

/-- Twice the signed (shoelace) area of a polygon. -/
def shoelaceSum (pts : List (ℚ × ℚ)) : ℚ :=
  ((closedEdges pts).map fun e => e.1.1 * e.2.2 - e.2.1 * e.1.2).sum

/-- Membership of a pixel in an axis-aligned ellipse given by its
bounding box, the idealised semantics of `ImageDraw.ellipse`. -/
def inEllipse (x0 y0 x1 y1 : ℚ) (p : ℚ × ℚ) : Bool :=
  decide ((p.1 - (x0 + x1) / 2) ^ 2 * ((y1 - y0) / 2) ^ 2 +
      (p.2 - (y0 + y1) / 2) ^ 2 * ((x1 - x0) / 2) ^ 2 ≤
    ((x1 - x0) / 2) ^ 2 * ((y1 - y0) / 2) ^ 2)

/-- Whether the horizontal ray from `p` toward `-∞` crosses the edge `e`
(even-odd rule, idealised semantics of `ImageDraw.polygon` fill). -/
def crossesRay (p : ℚ × ℚ) (e : (ℚ × ℚ) × (ℚ × ℚ)) : Bool :=
  decide ((((e.1.2 ≤ p.2 ∧ p.2 < e.2.2) ∨ (e.2.2 ≤ p.2 ∧ p.2 < e.1.2)) ∧
    ((e.1.1 - p.1) * (e.2.2 - e.1.2) + (p.2 - e.1.2) * (e.2.1 - e.1.1)) * (e.2.2 - e.1.2) < 0))

/-- Even-odd point-in-polygon test (idealised `ImageDraw.polygon` fill). -/
def pointInPoly (pts : List (ℚ × ℚ)) (p : ℚ × ℚ) : Bool :=
  ((closedEdges pts).countP fun e => crossesRay p e) % 2 = 1

/-- Coverage of a pixel by one drawing primitive: filled polygons by the
even-odd rule, strokes by distance to the stroked path, ellipses by the
bounding-box membership test, text by the external rasteriser. -/
def covers (p : ℚ × ℚ) : DrawOp → Bool
  | .polygonFill pts _ => pointInPoly pts p
  | .polygonOutline pts _ w => (closedEdges pts).any fun e => decide (segDistSq p e.1 e.2 ≤ (w / 2) ^ 2)
  | .lineSeg a b _ w => decide (segDistSq p a b ≤ (w / 2) ^ 2)
  | .ellipseFill x0 y0 x1 y1 _ => inEllipse x0 y0 x1 y1 p
  | .textDraw cov _ => cov p

/-- Colour of a drawing primitive. -/
def colorOf : DrawOp → RGBA
  | .polygonFill _ c => c
  | .polygonOutline _ c _ => c
  | .lineSeg _ _ c _ => c
  | .ellipseFill _ _ _ _ c => c
  | .textDraw _ c => c

/-- Source-over alpha blending on 8-bit channels, the compositing
contract of the `ImageDraw.Draw(img, 'RGBA')` canvas (the spec's
alpha-blended drawing primitives; an opaque source replaces the pixel). -/
def blend (dst src : RGBA) : RGBA :=
  { r := (src.r * src.a + dst.r * (255 - src.a)) / 255,
    g := (src.g * src.a + dst.g * (255 - src.a)) / 255,
    b := (src.b * src.a + dst.b * (255 - src.a)) / 255,
    a := src.a + dst.a * (255 - src.a) / 255 }

/-- One compositing step: draw `op` over colour `c` at pixel `p`. -/
def applyOp (p : ℚ × ℚ) (c : RGBA) (op : DrawOp) : RGBA :=
  if covers p op then blend c (colorOf op) else c

/-- Colour of pixel `p` after replaying a draw sequence over a background. -/
def renderAt (ops : List DrawOp) (background : ℚ × ℚ → RGBA) (p : ℚ × ℚ) : RGBA :=
  ops.foldl (applyOp p) (background p)

/-- Centre of the canvas as a rational point. -/
def centerQ (size : ℕ) : ℚ × ℚ := (((size / 2 : ℕ) : ℚ), ((size / 2 : ℕ) : ℚ))

/-- Shield radius of the main icon, `int(size * 0.38)` (src line 134). -/
def radiusOf (size : ℕ) : ℕ := 38 * size / 100

/-- Shield radius of the foreground icon, `int(size * 0.35)` (src line 236). -/
def radiusFgOf (size : ℕ) : ℕ := 35 * size / 100

/-- Strand line segments of `draw_circuit_dna` (src lines 58-60): for each
`i < len(left_points) - 1` one left-strand and one right-strand segment. -/
def helixStrandOps (sine : ℚ → ℚ) (center : ℚ × ℚ) (radius : ℚ) : List DrawOp :=
  (List.range 39).flatMap fun (i : ℕ) =>
    [ DrawOp.lineSeg ((buildHelixStrands sine center radius 40).1.getD i (0, 0))
        ((buildHelixStrands sine center radius 40).1.getD (i + 1) (0, 0))
        (mkRGBA 0 245 255 150) 2,
      DrawOp.lineSeg ((buildHelixStrands sine center radius 40).2.getD i (0, 0))
        ((buildHelixStrands sine center radius 40).2.getD (i + 1) (0, 0))
        (mkRGBA 0 102 255 150) 2 ]

/-- Connection bars with their node dots (src lines 63-72). -/
def rungOps (sine : ℚ → ℚ) (center : ℚ × ℚ) (radius : ℚ) : List DrawOp :=
  (List.range 8).flatMap fun (i : ℕ) =>
    [ DrawOp.lineSeg (rungLeft sine center radius i) (rungRight sine center radius i)
        (mkRGBA 0 245 255 80) 2,
      DrawOp.ellipseFill ((rungLeft sine center radius i).1 - 2)
        ((rungLeft sine center radius i).2 - 2)
        ((rungLeft sine center radius i).1 + 2)
        ((rungLeft sine center radius i).2 + 2) (mkRGBA 0 245 255 255),
      DrawOp.ellipseFill ((rungRight sine center radius i).1 - 2)
        ((rungRight sine center radius i).2 - 2)
        ((rungRight sine center radius i).1 + 2)
        ((rungRight sine center radius i).2 + 2) (mkRGBA 0 245 255 255) ]

/-- Glow copies of a text block (src lines 161-163 and 177-179): eight
draws at the same anchor with alpha `int(40 * (1 - offset / 8))` for
`offset` in `range(8, 0, -1)`. -/
def textGlowOps (cov : ℚ × ℚ → Bool) (r g b : ℤ) : List DrawOp :=
  (List.range 8).map fun (k : ℕ) =>
    DrawOp.textDraw cov (mkRGBA r g b (pyInt (40 * (1 - ((8 - k : ℕ) : ℚ) / 8))))

/-- Divider sub-segments (src lines 190-202): fifty short segments at
`y = center[1]`, alphas given by `dividerAlpha`. -/
def dividerOps (center : ℚ × ℚ) (radius : ℚ) : List DrawOp :=
  (List.range 50).map fun (i : ℕ) =>
    DrawOp.lineSeg
      (center.1 - radius * 0.4 + ((center.1 + radius * 0.4) - (center.1 - radius * 0.4)) * ((i : ℚ) / 50),
       center.2)
      (center.1 - radius * 0.4 + ((center.1 + radius * 0.4) - (center.1 - radius * 0.4)) * (((i : ℚ) / 50) + 1 / 50),
       center.2)
      (mkRGBA 0 245 255 (dividerAlpha ((i : ℚ) / 50))) 2

/-- Circuit nodes on the divider (src lines 205-208): for `i` in
`range(-2, 3)` a translucent disc of radius 4 and an opaque disc of
radius 2 centred at `(nodeX i, center[1])`. -/
def dividerNodeOps (center : ℚ × ℚ) (radius : ℚ) : List DrawOp :=
  (List.range 5).flatMap fun (k : ℕ) =>
    [ DrawOp.ellipseFill (nodeX center.1 radius ((k : ℤ) - 2) - 4) (center.2 - 4)
        (nodeX center.1 radius ((k : ℤ) - 2) + 4) (center.2 + 4) (mkRGBA 0 245 255 80),
      DrawOp.ellipseFill (nodeX center.1 radius ((k : ℤ) - 2) - 2) (center.2 - 2)
        (nodeX center.1 radius ((k : ℤ) - 2) + 2) (center.2 + 2) (mkRGBA 0 245 255 255) ]

/-- Corner targeting accents, from `draw_corner_accents` (src lines 74-94). -/
def cornerAccentOps (center : ℚ × ℚ) (radius : ℚ) : List DrawOp :=
  [ (center.1 - radius * 0.6, center.2 - radius * 0.5),
    (center.1 + radius * 0.6, center.2 - radius * 0.5),
    (center.1 - radius * 0.5, center.2 + radius * 0.6),
    (center.1 + radius * 0.5, center.2 + radius * 0.6) ].flatMap fun q =>
    [ DrawOp.ellipseFill (q.1 - 6) (q.2 - 6) (q.1 + 6) (q.2 + 6) (mkRGBA 0 245 255 100),
      DrawOp.ellipseFill (q.1 - 3) (q.2 - 3) (q.1 + 3) (q.2 + 3) (mkRGBA 0 245 255 255),
      DrawOp.ellipseFill (q.1 - 1) (q.2 - 1) (q.1 + 1) (q.2 + 1) (mkRGBA 255 255 255 255),
      DrawOp.lineSeg (q.1 - 10, q.2) (q.1 + 10, q.2) (mkRGBA 0 245 255 150) 2,
      DrawOp.lineSeg (q.1, q.2 - 10) (q.1, q.2 + 10) (mkRGBA 0 245 255 150) 2 ]

/-- Outer glow of the shield border (src lines 217-223): outline copies of
the shield scaled outward from the centre by `1 + 0.02 * i` for `i` in
`range(10, 0, -1)`, with alpha `int(50 * (1 - i / 10))`. -/
def glowBorderOps (center : ℚ × ℚ) (radius : ℚ) : List DrawOp :=
  (List.range 10).map fun (k : ℕ) =>
    DrawOp.polygonOutline
      ((create_shield_points center radius).map fun q =>
        (q.1 + (q.1 - center.1) * ((10 - k : ℕ) : ℚ) * 0.02,
         q.2 + (q.2 - center.2) * ((10 - k : ℕ) : ℚ) * 0.02))
      (mkRGBA 0 245 255 (pyInt (50 * (1 - ((10 - k : ℕ) : ℚ) / 10)))) 2

/-- Draw sequence of `create_adrig_icon` (src lines 96-228) after the
per-pixel gradient background: shield fill, helix, texts with glow,
divider, divider nodes, corner accents, border glow, border.  `tcAd` and
`tcRig` are the coverage functions the font engine produces for the two
text blocks (all glow copies are drawn at the same anchor). -/
def mainIconOps (size : ℕ) (sine : ℚ → ℚ) (tcAd tcRig : ℚ × ℚ → Bool) : List DrawOp :=
  [DrawOp.polygonFill (create_shield_points (centerQ size) ((radiusOf size : ℕ) : ℚ)) (mkRGBA 0 12 40 255)]
  ++ helixStrandOps sine (centerQ size) ((radiusOf size : ℕ) : ℚ)
  ++ rungOps sine (centerQ size) ((radiusOf size : ℕ) : ℚ)
  ++ textGlowOps tcAd 0 245 255
  ++ [DrawOp.textDraw tcAd (mkRGBA 0 245 255 255)]
  ++ textGlowOps tcRig 0 102 255
  ++ [DrawOp.textDraw tcRig (mkRGBA 0 102 255 255)]
  ++ dividerOps (centerQ size) ((radiusOf size : ℕ) : ℚ)
  ++ dividerNodeOps (centerQ size) ((radiusOf size : ℕ) : ℚ)
  ++ cornerAccentOps (centerQ size) ((radiusOf size : ℕ) : ℚ)
  ++ glowBorderOps (centerQ size) ((radiusOf size : ℕ) : ℚ)
  ++ [DrawOp.polygonOutline (create_shield_points (centerQ size) ((radiusOf size : ℕ) : ℚ))
        (mkRGBA 0 245 255 255) 3]

/-- RGB value of one pixel of the finished main icon
(`img.convert('RGB')`, src line 228), over an abstract gradient
background `bg` (the per-pixel gradient of src lines 107-131, whose
colour function is `gradientColor`). -/
def mainIconPixelRGB (size : ℕ) (sine : ℚ → ℚ) (tcAd tcRig : ℚ × ℚ → Bool)
    (bg : ℚ × ℚ → RGBA) (p : ℚ × ℚ) : ℤ × ℤ × ℤ :=
  ((renderAt (mainIconOps size sine tcAd tcRig) bg p).r,
   (renderAt (mainIconOps size sine tcAd tcRig) bg p).g,
   (renderAt (mainIconOps size sine tcAd tcRig) bg p).b)

/-- Draw sequence of `create_foreground_icon` (src lines 230-281). -/
def fgIconOps (size : ℕ) (sine : ℚ → ℚ) (tcAd tcRig : ℚ × ℚ → Bool) : List DrawOp :=
  [DrawOp.polygonFill (create_shield_points (centerQ size) ((radiusFgOf size : ℕ) : ℚ)) (mkRGBA 0 20 60 255)]
  ++ helixStrandOps sine (centerQ size) ((radiusFgOf size : ℕ) : ℚ)
  ++ rungOps sine (centerQ size) ((radiusFgOf size : ℕ) : ℚ)
  ++ [DrawOp.textDraw tcAd (mkRGBA 0 245 255 255),
      DrawOp.textDraw tcRig (mkRGBA 0 102 255 255),
      DrawOp.lineSeg ((centerQ size).1 - ((radiusFgOf size : ℕ) : ℚ) * 0.4, (centerQ size).2)
        ((centerQ size).1 + ((radiusFgOf size : ℕ) : ℚ) * 0.4, (centerQ size).2)
        (mkRGBA 0 245 255 255) 2]
  ++ cornerAccentOps (centerQ size) ((radiusFgOf size : ℕ) : ℚ)
  ++ [DrawOp.polygonOutline (create_shield_points (centerQ size) ((radiusFgOf size : ℕ) : ℚ))
        (mkRGBA 0 245 255 255) 4]

/-- One pixel of the finished foreground icon: replay over the fresh
transparent canvas `Image.new('RGBA', ..., (0, 0, 0, 0))` (src line 232). -/
def fgIconPixel (size : ℕ) (sine : ℚ → ℚ) (tcAd tcRig : ℚ × ℚ → Bool) (p : ℚ × ℚ) : RGBA :=
  renderAt (fgIconOps size sine tcAd tcRig) (fun _ => mkRGBA 0 0 0 0) p

/-! Helper lemmas. -/

theorem pyInt_of_nonneg {q : ℚ} (h : 0 ≤ q) : pyInt q = ⌊q⌋ := by
  simp [pyInt, not_lt.mpr h]

theorem pyInt_mono {a b : ℚ} (ha : 0 ≤ a) (h : a ≤ b) : pyInt a ≤ pyInt b := by
  rw [pyInt_of_nonneg ha, pyInt_of_nonneg (ha.trans h)]
  exact Int.floor_le_floor h

theorem le_pyInt {z : ℤ} {q : ℚ} (hq : 0 ≤ q) (h : (z : ℚ) ≤ q) : z ≤ pyInt q := by
  rw [pyInt_of_nonneg hq]; exact Int.le_floor.mpr h

theorem pyInt_lt {z : ℤ} {q : ℚ} (hq : 0 ≤ q) (h : q < (z : ℚ)) : pyInt q < z := by
  rw [pyInt_of_nonneg hq]; exact Int.floor_lt.mpr h

/-! Claim theorems. -/

/-- C2: for every centre and radius > 0 the shield outline has exactly 12
points and is symmetric under horizontal reflection about `center.x`:
point `(12 - i) % 12` is the mirror of point `i` (equal y, negated x
offset). -/
theorem shield_twelve_points_symmetric (cx cy radius : ℚ) (hr : 0 < radius) :
    (create_shield_points (cx, cy) radius).length = 12 ∧
    ∀ i : ℕ, i < 12 →
      ((create_shield_points (cx, cy) radius).getD ((12 - i) % 12) (0, 0)).2
        = ((create_shield_points (cx, cy) radius).getD i (0, 0)).2 ∧
      ((create_shield_points (cx, cy) radius).getD ((12 - i) % 12) (0, 0)).1 - cx
        = -(((create_shield_points (cx, cy) radius).getD i (0, 0)).1 - cx) := by
  refine ⟨rfl, ?_⟩
  intro i hi
  interval_cases i <;>
    exact ⟨by norm_num [create_shield_points],
           by norm_num [create_shield_points]; try ring⟩

/-- C2 witness: the symmetry instance at centre (0,0), radius 1, i = 1. -/
theorem shield_twelve_points_symmetric_witness :
    (create_shield_points ((0 : ℚ), (0 : ℚ)) 1).length = 12 ∧
    ((create_shield_points ((0 : ℚ), (0 : ℚ)) 1).getD 11 (0, 0)).2
        = ((create_shield_points ((0 : ℚ), (0 : ℚ)) 1).getD 1 (0, 0)).2 :=
  ⟨(shield_twelve_points_symmetric 0 0 1 (by norm_num)).1,
   ((shield_twelve_points_symmetric 0 0 1 (by norm_num)).2 1 (by norm_num)).1⟩

/-- C9: with radius 0 the shield builder does not fail; it returns the
degenerate 12-point polygon all of whose vertices equal the centre, with
zero (shoelace) area. -/
theorem shield_radius_zero_degenerate (cx cy : ℚ) :
    create_shield_points (cx, cy) 0
        = [(cx, cy), (cx, cy), (cx, cy), (cx, cy), (cx, cy), (cx, cy),
           (cx, cy), (cx, cy), (cx, cy), (cx, cy), (cx, cy), (cx, cy)] ∧
    (create_shield_points (cx, cy) 0).length = 12 ∧
    shoelaceSum (create_shield_points (cx, cy) 0) = 0 := by
  refine ⟨by norm_num [create_shield_points], rfl, ?_⟩
  norm_num [shoelaceSum, closedEdges, create_shield_points]

/-- C3: for every sample count the two helix strands have equal length
`sampleCount` and are mirror images about the vertical centre line at
every sampled index: equal y, negated x offset. -/
theorem helix_strands_mirror (sine : ℚ → ℚ) (cx cy radius : ℚ) (n : ℕ)
    (hn : 2 ≤ n) :
    (buildHelixStrands sine (cx, cy) radius n).1.length = n ∧
    (buildHelixStrands sine (cx, cy) radius n).2.length = n ∧
    ∀ i : ℕ, i < n →
      ((buildHelixStrands sine (cx, cy) radius n).1.getD i (0, 0)).2
        = ((buildHelixStrands sine (cx, cy) radius n).2.getD i (0, 0)).2 ∧
      ((buildHelixStrands sine (cx, cy) radius n).1.getD i (0, 0)).1 - cx
        = -(((buildHelixStrands sine (cx, cy) radius n).2.getD i (0, 0)).1 - cx) := by
  refine ⟨by simp only [buildHelixStrands, List.length_map, List.length_range],
          by simp only [buildHelixStrands, List.length_map, List.length_range], ?_⟩
  intro i hi
  rw [List.getD_eq_getElem _ _
        (by simp only [buildHelixStrands, List.length_map, List.length_range]; omega),
      List.getD_eq_getElem _ _
        (by simp only [buildHelixStrands, List.length_map, List.length_range]; omega)]
  simp only [buildHelixStrands, List.getElem_map, List.getElem_range]
  exact ⟨trivial, by ring⟩

/-- C3 witness: both strands have length 2 when sampled with count 2. -/
theorem helix_strands_mirror_witness :
    (buildHelixStrands (fun q => q) ((0 : ℚ), (0 : ℚ)) 1 2).1.length = 2 :=
  (helix_strands_mirror (fun q => q) 0 0 1 2 (by norm_num)).1

/-- C5 counterexample: the strand builder does not fail on degenerate
sample counts: with `sampleCount = 0` it returns two empty strands, and
with `sampleCount = 1` two one-point strands (no InvalidParameter
condition exists anywhere in the source). -/
theorem helix_no_validation_counterexample :
    buildHelixStrands (fun q => q) ((0 : ℚ), (0 : ℚ)) 1 0 = ([], []) ∧
    (buildHelixStrands (fun q => q) ((0 : ℚ), (0 : ℚ)) 1 1).1.length = 1 :=
  ⟨rfl, rfl⟩

/-- C5 (amended): for a sample count below 2 the builder returns normally
with two degenerate strands of length `sampleCount` instead of failing;
the source performs no validation (its sample count is the fixed
constant 40). -/
theorem helix_degenerate_no_failure (sine : ℚ → ℚ) (center : ℚ × ℚ)
    (radius : ℚ) (n : ℕ) (hn : n < 2) :
    (buildHelixStrands sine center radius n).1.length = n ∧
    (buildHelixStrands sine center radius n).2.length = n := by
  exact ⟨by simp only [buildHelixStrands, List.length_map, List.length_range],
         by simp only [buildHelixStrands, List.length_map, List.length_range]⟩

/-- C5 witness: at sample count 0 the left strand is empty. -/
theorem helix_degenerate_no_failure_witness :
    (buildHelixStrands (fun q => q) ((0 : ℚ), (0 : ℚ)) 1 0).1.length = 0 :=
  (helix_degenerate_no_failure (fun q => q) (0, 0) 1 0 (by norm_num)).1

/-- C10: each connection bar lands exactly on the strand samples: for
every rung index `i < 8` the rung endpoints coincide with strand points
`5 * i` of the 40-sample strands (both are the same parametric formula at
`t = i / 8 = 5 * i / 40`). -/
theorem rungs_land_on_strand_samples (sine : ℚ → ℚ) (cx cy radius : ℚ)
    (i : ℕ) (hi : i < 8) :
    (buildHelixStrands sine (cx, cy) radius 40).1.getD (5 * i) (0, 0)
        = rungLeft sine (cx, cy) radius i ∧
    (buildHelixStrands sine (cx, cy) radius 40).2.getD (5 * i) (0, 0)
        = rungRight sine (cx, cy) radius i := by
  interval_cases i <;>
    constructor <;>
      ( rw [List.getD_eq_getElem _ _
              (by simp only [buildHelixStrands, List.length_map, List.length_range]; omega)]
        simp only [buildHelixStrands, List.getElem_map, List.getElem_range,
          rungLeft, rungRight]
        norm_num )

/-- C10 witness: rung 0 coincides with strand sample 0. -/
theorem rungs_land_on_strand_samples_witness :
    (buildHelixStrands (fun q => q) ((0 : ℚ), (0 : ℚ)) 1 40).1.getD 0 (0, 0)
        = rungLeft (fun q => q) ((0 : ℚ), (0 : ℚ)) 1 0 :=
  (rungs_land_on_strand_samples (fun q => q) 0 0 1 0 (by norm_num)).1

/-- C1 (amended to sizes ≥ 2): the pixel at the exact centre has ratio 0
and receives the first stop colour (0,8,32,255) exactly; pixel (0,0) is a
farthest corner (its squared distance dominates every pixel's) with ratio
exactly 1 and receives the last stop colour (15,52,96,255) exactly.  The
ratios are characterised square-free: `r ≥ 0 ∧ r² · maxRadiusSq = distSq`. -/
theorem gradient_endpoint_colors (size : ℕ) (hs : 2 ≤ size) (rc rf : ℚ)
    (hrc0 : 0 ≤ rc)
    (hrc : rc ^ 2 * maxRadiusSq size = distSq size (centerOf size).1 (centerOf size).2)
    (hrf0 : 0 ≤ rf)
    (hrf : rf ^ 2 * maxRadiusSq size = distSq size 0 0) :
    gradientColor rc = (0, 8, 32, 255) ∧
    gradientColor rf = (15, 52, 96, 255) ∧
    ∀ x y : ℤ, 0 ≤ x → x < (size : ℤ) → 0 ≤ y → y < (size : ℤ) →
      distSq size x y ≤ distSq size 0 0 := by
  have hc1 : (1 : ℚ) ≤ (((size / 2 : ℕ) : ℤ) : ℚ) := by
    have : (1 : ℕ) ≤ size / 2 := by omega
    exact_mod_cast this
  have hM : 0 < maxRadiusSq size := by
    simp only [maxRadiusSq, centerOf]
    nlinarith
  have hdc : distSq size (centerOf size).1 (centerOf size).2 = 0 := by
    simp [distSq, centerOf]
  have hd0 : distSq size 0 0 = maxRadiusSq size := by
    simp only [distSq, maxRadiusSq, centerOf]
    ring
  refine ⟨?_, ?_, ?_⟩
  · have hrc2 : rc ^ 2 = 0 := by
      rcases mul_eq_zero.mp (hrc.trans hdc) with h | h
      · exact h
      · exact absurd h hM.ne'
    have hrcz : rc = 0 := by simpa using hrc2
    subst hrcz
    norm_num [gradientColor]
  · have hrf2 : rf ^ 2 = 1 := by
      have := hrf.trans hd0
      field_simp at this
      nlinarith [hM]
    have hrf1 : rf = 1 := by
      nlinarith [hrf2, hrf0]
    subst hrf1
    norm_num [gradientColor, pyInt]
  · intro x y hx0 hxs hy0 hys
    have hbx : (x : ℚ) ≤ 2 * (((size / 2 : ℕ) : ℤ) : ℚ) := by
      have : x ≤ 2 * ((size / 2 : ℕ) : ℤ) := by omega
      exact_mod_cast this
    have hby : (y : ℚ) ≤ 2 * (((size / 2 : ℕ) : ℤ) : ℚ) := by
      have : y ≤ 2 * ((size / 2 : ℕ) : ℤ) := by omega
      exact_mod_cast this
    have hbx0 : (0 : ℚ) ≤ (x : ℚ) := by exact_mod_cast hx0
    have hby0 : (0 : ℚ) ≤ (y : ℚ) := by exact_mod_cast hy0
    simp only [distSq, centerOf] at *
    have h1 : ((x : ℚ) - (((size / 2 : ℕ) : ℤ) : ℚ)) ^ 2 ≤ (((size / 2 : ℕ) : ℤ) : ℚ) ^ 2 := by
      apply sq_le_sq' <;> linarith
    have h2 : ((y : ℚ) - (((size / 2 : ℕ) : ℤ) : ℚ)) ^ 2 ≤ (((size / 2 : ℕ) : ℤ) : ℚ) ^ 2 := by
      apply sq_le_sq' <;> linarith
    push_cast at *
    nlinarith

/-- C1 witness: at size 2 with centre ratio 0 and corner ratio 1 the
centre colour is the first stop. -/
theorem gradient_endpoint_colors_witness :
    gradientColor 0 = (0, 8, 32, 255) :=
  (gradient_endpoint_colors 2 (by norm_num) 0 1 (by norm_num)
    (by norm_num [maxRadiusSq, distSq, centerOf])
    (by norm_num)
    (by norm_num [maxRadiusSq, distSq, centerOf])).1

/-- C1 counterexample at size 1: `max_radius` is 0 (the source divides by
zero), and the farthest corner pixel (0,0) coincides with the centre
pixel, whose required colour (0,8,32,255) differs from the required
(15,52,96,255), so the claim fails at size 1. -/
theorem gradient_size_one_counterexample :
    centerOf 1 = (0, 0) ∧ maxRadiusSq 1 = 0 ∧ distSq 1 0 0 = 0 ∧
    gradientColor 0 ≠ ((15 : ℤ), 52, 96, 255) := by
  refine ⟨rfl, by norm_num [maxRadiusSq, centerOf],
    by norm_num [distSq, centerOf], by norm_num [gradientColor]⟩

/-- C7: the gradient colour is monotone in the ratio, channel by channel
(R, G and B), after integer truncation. -/
theorem gradient_monotone_channels (r1 r2 : ℚ) (h0 : 0 ≤ r1) (h12 : r1 ≤ r2)
    (h1 : r2 ≤ 1) :
    (gradientColor r1).1 ≤ (gradientColor r2).1 ∧
    (gradientColor r1).2.1 ≤ (gradientColor r2).2.1 ∧
    (gradientColor r1).2.2.1 ≤ (gradientColor r2).2.2.1 := by
  rcases lt_or_ge r1 (0.4 : ℚ) with ha | ha
  · rcases lt_or_ge r2 (0.4 : ℚ) with hb | hb
    · simp [gradientColor, ha, hb]
    · rcases lt_or_ge r2 (0.7 : ℚ) with hc | hc
      · have ht2 : (0 : ℚ) ≤ (r2 - 0.4) / 0.3 := div_nonneg (by linarith) (by norm_num)
        simp only [gradientColor, if_pos ha, if_neg (not_lt.mpr hb), if_pos hc]
        refine ⟨?_, ?_, ?_⟩
        · rw [show (0 : ℚ) + (0 - 0) * ((r2 - 0.4) / 0.3) = 0 by ring]
          norm_num [pyInt]
        · exact le_pyInt (by linarith) (by push_cast; linarith)
        · exact le_pyInt (by linarith) (by push_cast; linarith)
      · have ht2 : (0 : ℚ) ≤ (r2 - 0.7) / 0.3 := div_nonneg (by linarith) (by norm_num)
        simp only [gradientColor, if_pos ha, if_neg (not_lt.mpr hb), if_neg (not_lt.mpr hc)]
        refine ⟨?_, ?_, ?_⟩
        · exact le_pyInt (by linarith) (by push_cast; linarith)
        · exact le_pyInt (by linarith) (by push_cast; linarith)
        · exact le_pyInt (by linarith) (by push_cast; linarith)
  · rcases lt_or_ge r1 (0.7 : ℚ) with hb | hb
    · rcases lt_or_ge r2 (0.4 : ℚ) with hc | hc
      · linarith
      · have ht1 : (0 : ℚ) ≤ (r1 - 0.4) / 0.3 := div_nonneg (by linarith) (by norm_num)
        have ht1lt : (r1 - 0.4) / 0.3 < 1 := by
          rw [div_lt_one (by norm_num : (0 : ℚ) < 0.3)]; linarith
        rcases lt_or_ge r2 (0.7 : ℚ) with hd | hd
        · have ht12 : (r1 - 0.4) / 0.3 ≤ (r2 - 0.4) / 0.3 := by gcongr
          simp only [gradientColor, if_neg (not_lt.mpr ha), if_pos hb,
            if_neg (not_lt.mpr hc), if_pos hd]
          refine ⟨?_, ?_, ?_⟩ <;>
            exact pyInt_mono (by linarith) (by linarith)
        · have ht2 : (0 : ℚ) ≤ (r2 - 0.7) / 0.3 := div_nonneg (by linarith) (by norm_num)
          simp only [gradientColor, if_neg (not_lt.mpr ha), if_pos hb,
            if_neg (not_lt.mpr (by linarith : (0.4 : ℚ) ≤ r2)), if_neg (not_lt.mpr hd)]
          refine ⟨?_, ?_, ?_⟩ <;>
            exact pyInt_mono (by linarith) (by linarith)
    · rcases lt_or_ge r2 (0.7 : ℚ) with hc | hc
      · linarith
      · have ht1 : (0 : ℚ) ≤ (r1 - 0.7) / 0.3 := div_nonneg (by linarith) (by norm_num)
        have ht12 : (r1 - 0.7) / 0.3 ≤ (r2 - 0.7) / 0.3 := by gcongr
        simp only [gradientColor, if_neg (not_lt.mpr (by linarith : (0.4 : ℚ) ≤ r1)),
          if_neg (not_lt.mpr hb), if_neg (not_lt.mpr (by linarith : (0.4 : ℚ) ≤ r2)),
          if_neg (not_lt.mpr hc)]
        refine ⟨?_, ?_, ?_⟩ <;>
          exact pyInt_mono (by linarith) (by linarith)

/-- C7 witness: the red channel at ratio 0 is at most the red channel at
ratio 1. -/
theorem gradient_monotone_channels_witness :
    (gradientColor 0).1 ≤ (gradientColor 1).1 :=
  (gradient_monotone_channels 0 1 (by norm_num) (by norm_num) (by norm_num)).1

/-- C6 (amended): the divider sub-segment alpha is at full opacity (100)
exactly on the middle three fifths `0.2 ≤ t ≤ 0.8` of the segment, ramps
as the truncation of the linear function `500·t` (resp. `500·(1-t)`)
from 0 on each outer fifth, and the node circles are evenly spaced,
`radius * 0.2` apart. -/
theorem divider_alpha_profile (t : ℚ) (h0 : 0 ≤ t) (h1 : t ≤ 1) :
    (dividerAlpha t = 100 ↔ 0.2 ≤ t ∧ t ≤ 0.8) ∧
    (t < 0.2 → dividerAlpha t = ⌊(500 : ℚ) * t⌋) ∧
    (0.8 < t → dividerAlpha t = ⌊(500 : ℚ) * (1 - t)⌋) ∧
    dividerAlpha 0 = 0 ∧
    (∀ (cx radius : ℚ) (i : ℤ),
      nodeX cx radius (i + 1) - nodeX cx radius i = radius * 0.2) := by
  have hlow : t < 0.2 → dividerAlpha t = ⌊(500 : ℚ) * t⌋ := by
    intro ht
    have hmin : min (t / 0.2) ((1 - t) / 0.2) = t / 0.2 :=
      min_eq_left ((div_le_div_iff_of_pos_right (by norm_num : (0 : ℚ) < 0.2)).mpr
        (by linarith))
    rw [dividerAlpha, if_pos (Or.inl ht), hmin,
      show (100 : ℚ) * (t / 0.2) = 500 * t by ring,
      pyInt_of_nonneg (by linarith)]
  have hhigh : 0.8 < t → dividerAlpha t = ⌊(500 : ℚ) * (1 - t)⌋ := by
    intro ht
    have hmin : min (t / 0.2) ((1 - t) / 0.2) = (1 - t) / 0.2 :=
      min_eq_right ((div_le_div_iff_of_pos_right (by norm_num : (0 : ℚ) < 0.2)).mpr
        (by linarith))
    rw [dividerAlpha, if_pos (Or.inr ht), hmin,
      show (100 : ℚ) * ((1 - t) / 0.2) = 500 * (1 - t) by ring,
      pyInt_of_nonneg (by linarith)]
  refine ⟨?_, hlow, hhigh, ?_, ?_⟩
  · constructor
    · intro heq
      constructor
      · by_contra hlt
        push_neg at hlt
        have := hlow hlt
        have hfl : ⌊(500 : ℚ) * t⌋ < 100 := Int.floor_lt.mpr (by push_cast; linarith)
        omega
      · by_contra hgt
        push_neg at hgt
        have := hhigh hgt
        have hfl : ⌊(500 : ℚ) * (1 - t)⌋ < 100 := Int.floor_lt.mpr (by push_cast; linarith)
        omega
    · rintro ⟨ha, hb⟩
      rw [dividerAlpha, if_neg]
      push_neg
      exact ⟨ha, hb⟩
  · norm_num [dividerAlpha, pyInt]
  · intro cx radius i
    simp only [nodeX]
    push_cast
    ring

/-- C6 witness: at t = 1/2 the divider is at full opacity and 1/2 lies in
the plateau. -/
theorem divider_alpha_profile_witness :
    dividerAlpha (1 / 2) = 100 ↔ 0.2 ≤ (1 / 2 : ℚ) ∧ (1 / 2 : ℚ) ≤ 0.8 :=
  (divider_alpha_profile (1 / 2) (by norm_num) (by norm_num)).1

/-- C6 counterexample: at t = 1/4, outside the middle third, the alpha is
already at its full value 100, so full opacity does not hold exactly on
the middle third. -/
theorem divider_alpha_quarter_counterexample :
    dividerAlpha 0.25 = 100 ∧ ¬((1 / 3 : ℚ) ≤ 0.25) := by
  constructor
  · rw [dividerAlpha, if_neg (by norm_num)]
  · norm_num

set_option maxHeartbeats 2000000

theorem blend_opaque (d : RGBA) (r g b : ℤ) :
    blend d (mkRGBA r g b 255) = mkRGBA r g b 255 := by
  ext <;> simp [blend, mkRGBA]

theorem foldl_not_covered (p : ℚ × ℚ) (L : List DrawOp)
    (h : ∀ op ∈ L, covers p op = false) (c : RGBA) :
    List.foldl (applyOp p) c L = c := by
  induction L generalizing c with
  | nil => rfl
  | cons a L ih =>
      rw [List.foldl_cons, applyOp, h a (List.mem_cons_self a L)]
      simp only [Bool.false_eq_true, if_false]
      exact ih (fun op hop => h op (List.mem_cons_of_mem a hop)) c

theorem dividerNodes_center_fold (c : RGBA) :
    List.foldl (applyOp ((512 : ℚ), (512 : ℚ))) c (dividerNodeOps (512, 512) 389)
      = mkRGBA 0 245 255 255 := by
  have h5 : List.range 5 = [0, 1, 2, 3, 4] := rfl
  simp only [dividerNodeOps, h5, List.flatMap_cons, List.flatMap_nil, List.append_nil,
    List.cons_append, List.nil_append, List.foldl_cons, List.foldl_nil]
  norm_num [applyOp, covers, inEllipse, nodeX, colorOf, blend_opaque]

theorem corner_accents_miss_center :
    ∀ op ∈ cornerAccentOps ((512 : ℚ), (512 : ℚ)) 389, covers (512, 512) op = false := by
  norm_num [cornerAccentOps, covers, inEllipse, segDistSq, closedEdges, min_def, max_def]

theorem glow_border_misses_center :
    ∀ op ∈ glowBorderOps ((512 : ℚ), (512 : ℚ)) 389, covers (512, 512) op = false := by
  norm_num [glowBorderOps, covers, create_shield_points, inEllipse, segDistSq,
    closedEdges, min_def, max_def, List.range_succ]

theorem main_border_misses_center :
    covers ((512 : ℚ), (512 : ℚ))
      (DrawOp.polygonOutline (create_shield_points ((512 : ℚ), (512 : ℚ)) 389)
        (mkRGBA 0 245 255 255) 3) = false := by
  norm_num [covers, create_shield_points, segDistSq, closedEdges, min_def, max_def]

theorem main_icon_center_render (sine : ℚ → ℚ) (tcAd tcRig : ℚ × ℚ → Bool)
    (bg : ℚ × ℚ → RGBA) :
    renderAt (mainIconOps 1024 sine tcAd tcRig) bg (512, 512) = mkRGBA 0 245 255 255 := by
  have hc : centerQ 1024 = ((512 : ℚ), (512 : ℚ)) := by norm_num [centerQ]
  have hr : ((radiusOf 1024 : ℕ) : ℚ) = 389 := by norm_num [radiusOf]
  rw [renderAt, mainIconOps, hc, hr]
  simp only [List.append_assoc, List.singleton_append, List.foldl_append,
    List.foldl_cons, List.foldl_nil]
  rw [dividerNodes_center_fold]
  rw [foldl_not_covered _ _ corner_accents_miss_center]
  rw [foldl_not_covered _ _ glow_border_misses_center]
  rw [applyOp, main_border_misses_center]
  simp

/-- C4 (amended): composing the Main Icon at size 1024 yields a centre
pixel with the opaque circuit-node colour (0,245,255): the divider node
drawn at the centre (src lines 205-208) covers the shield fill (0,12,40),
whatever the gradient background, the sine samples and the glyph
coverage are. -/
theorem main_icon_center_pixel (sine : ℚ → ℚ) (tcAd tcRig : ℚ × ℚ → Bool)
    (bg : ℚ × ℚ → RGBA) :
    mainIconPixelRGB 1024 sine tcAd tcRig bg (512, 512) = (0, 245, 255) := by
  rw [mainIconPixelRGB, main_icon_center_render]
  rfl

/-- C4 counterexample: at size 1024 with any concrete collaborators the
centre pixel of the main icon is not the shield fill colour (0,12,40). -/
theorem main_icon_center_not_shield_fill :
    mainIconPixelRGB 1024 (fun _ => 0) (fun _ => false) (fun _ => false)
      (fun _ => mkRGBA 0 0 0 0) (512, 512) ≠ (0, 12, 40) := by
  rw [mainIconPixelRGB, main_icon_center_render]
  simp [mkRGBA]

/-- C8: each icon variant is a deterministic pure function of its size
and its resolved external collaborators (sine table, glyph coverage,
gradient background): two invocations with equal inputs produce
pixel-identical canvases, and the two variants share no state. -/
theorem variants_deterministic (s1 s2 : ℕ) (sine1 sine2 : ℚ → ℚ)
    (tA1 tA2 tR1 tR2 : ℚ × ℚ → Bool) (bg1 bg2 : ℚ × ℚ → RGBA)
    (hs : s1 = s2) (hsn : sine1 = sine2) (hA : tA1 = tA2) (hR : tR1 = tR2)
    (hbg : bg1 = bg2) :
    (∀ p, mainIconPixelRGB s1 sine1 tA1 tR1 bg1 p
        = mainIconPixelRGB s2 sine2 tA2 tR2 bg2 p) ∧
    (∀ p, fgIconPixel s1 sine1 tA1 tR1 p = fgIconPixel s2 sine2 tA2 tR2 p) := by
  subst hs
  subst hsn
  subst hA
  subst hR
  subst hbg
  exact ⟨fun p => rfl, fun p => rfl⟩

/-- C8 witness: two invocations of the main composer at size 4 with the
same collaborators agree at pixel (0,0). -/
theorem variants_deterministic_witness :
    mainIconPixelRGB 4 (fun q => q) (fun _ => false) (fun _ => false)
      (fun _ => mkRGBA 0 0 0 0) (0, 0)
      = mainIconPixelRGB 4 (fun q => q) (fun _ => false) (fun _ => false)
        (fun _ => mkRGBA 0 0 0 0) (0, 0) :=
  (variants_deterministic 4 4 (fun q => q) (fun q => q) (fun _ => false)
    (fun _ => false) (fun _ => false) (fun _ => false) (fun _ => mkRGBA 0 0 0 0)
    (fun _ => mkRGBA 0 0 0 0) rfl rfl rfl rfl rfl).1 (0, 0)
